import Mathlib

/-!
Verification development for the adk_multi_agents demo script.

Part I embeds the only original logic of `src/adk_multi_agents/main.py`
(the event-list-to-reply reduction at lines 85-91) as Lean functions.

Part II models, from the specification, the minimal multi-agent
request-routing core the script delegates to (agent registry, coordinator
routing, single-round runner): that code lives in the external `google.adk`
library and is not part of this repository, so it is modelled from the
words of the specification.
-/

namespace AdkDemo

/-! ## Part I: embedding of the response extraction in main.py -/

/-- A text part of an event content (`types.Part`): `text` is `none` when the
Python attribute is `None`. -/
structure Part where
  text : Option String
deriving Repr, DecidableEq

/-- Event content (`types.Content`): `parts` is `none` when the Python
attribute is `None`. -/
structure Content where
  parts : Option (List Part)
deriving Repr, DecidableEq

/-- One event returned by `runner.run`. -/
structure Event where
  author : String
  content : Option Content
deriving Repr, DecidableEq

/-- The Python truthiness filter `if p.text`: keeps the text only when it is
neither `None` nor the empty string. -/
def truthyText (p : Part) : Option String :=
  match p.text with
  | none => none
  | some t => if t = "" then none else some t

/-- Embedding of lines 85-91 of `main.py`:

    response = ""
    if events and events[-1].content and events[-1].content.parts:
        for event in events:
            response = "\n".join([p.text for p in events[-1].content.parts if p.text])

The guard chain tests (Python truthiness) that the list is non-empty, that
the last event has a content object, and that its parts list is neither
`None` nor empty; the loop body reassigns `response` once per event, always
to the same value computed from the last event. -/
def response (events : List Event) : String :=
  match events.getLast? with
  | none => ""
  | some last =>
    match last.content with
    | none => ""
    | some c =>
      match c.parts with
      | none => ""
      | some ps =>
        if ps = [] then ""
        else
          events.foldl
            (fun _ _ => String.intercalate "\n" (ps.filterMap truthyText)) ""

/-- The truthy texts carried by an event: the texts of its parts that are
neither `None` nor empty (empty when there is no content or no parts). -/
def eventTexts (e : Event) : List String :=
  match e.content with
  | none => []
  | some c =>
    match c.parts with
    | none => []
    | some ps => ps.filterMap truthyText

/-! ## Part II: the routing core, modelled from the specification

The agent registry, coordinator routing and single-round runner live in the
external `google.adk` library; only their configuration appears in
`main.py`.  They are modelled here from sections 3, 4.1, 4.2 and 4.3 of the
specification. -/

/-- Modelled from the spec: an Agent (section 3) is a named entity with an
instruction, a description used for routing, and an ordered sequence of
child agents (the generation capability is passed separately, as an opaque
function, wherever it is invoked). -/
inductive Agent where
  | mk (name instruction description : String) (children : List Agent)

def Agent.name : Agent → String
  | .mk n _ _ _ => n

def Agent.instruction : Agent → String
  | .mk _ i _ _ => i

def Agent.description : Agent → String
  | .mk _ _ d _ => d

def Agent.children : Agent → List Agent
  | .mk _ _ _ cs => cs

mutual

/-- All nodes of an agent tree, root first. -/
def Agent.nodes : Agent → List Agent
  | .mk n i d cs => .mk n i d cs :: Agent.forestNodes cs

/-- All nodes of a forest of agent trees. -/
def Agent.forestNodes : List Agent → List Agent
  | [] => []
  | c :: cs => Agent.nodes c ++ Agent.forestNodes cs

end

/-- The names of the proper descendants of an agent. -/
def Agent.descendantNames (a : Agent) : List String :=
  (Agent.forestNodes a.children).map Agent.name

/-- `IsNode t a`: agent `a` occurs in the tree rooted at `t` (at the root or
below). -/
inductive IsNode : Agent → Agent → Prop where
  | refl (a : Agent) : IsNode a a
  | child {a c b : Agent} : c ∈ a.children → IsNode c b → IsNode a b

/-- `ProperDescendant a b`: agent `b` occurs strictly below `a`. -/
def ProperDescendant (a b : Agent) : Prop :=
  ∃ c ∈ a.children, IsNode c b

/-- Modelled from the spec: the `ConfigurationError` of section 7 (bad agent
tree, detected at registration). -/
inductive ConfigurationError where
  | duplicateSiblings
  | cyclicTree
deriving Repr, DecidableEq

/-- Some node of the tree has two children sharing a name. -/
def SiblingClash (t : Agent) : Prop :=
  ∃ a ∈ t.nodes, ¬ (a.children.map Agent.name).Nodup

/-- Some node of the tree appears (by name) as its own descendant. -/
def CyclicTree (t : Agent) : Prop :=
  ∃ a ∈ t.nodes, a.name ∈ a.descendantNames

instance (t : Agent) : Decidable (SiblingClash t) := by
  unfold SiblingClash; infer_instance

instance (t : Agent) : Decidable (CyclicTree t) := by
  unfold CyclicTree; infer_instance

/-- The tree built by registration: the coordinator with the given children
attached. -/
def regTree (coordinator : Agent) (children : List Agent) : Agent :=
  .mk coordinator.name coordinator.instruction coordinator.description children

/-- Modelled from the spec: `register(coordinator, children)` (section 4.1)
builds the static agent tree and fails with `ConfigurationError` if two
sibling agents share a name or the tree contains a cycle (an agent appearing
as its own descendant); on success the read-only tree is returned. -/
def register (coordinator : Agent) (children : List Agent) :
    Except ConfigurationError Agent :=
  if SiblingClash (regTree coordinator children) then .error .duplicateSiblings
  else if CyclicTree (regTree coordinator children) then .error .cyclicTree
  else .ok (regTree coordinator children)

/-- Modelled from the spec: a Turn (section 3), one immutable entry of a
session transcript. -/
inductive TurnRole where
  | user
  | agent
  | delegation
deriving Repr, DecidableEq

structure Turn where
  author : String
  role : TurnRole
  parts : List String
  target : Option String
deriving Repr, DecidableEq

/-- Modelled from the spec: a Message (section 3), a user-role ordered
sequence of text fragments. -/
structure Message where
  parts : List String
deriving Repr, DecidableEq

/-- Modelled from the spec: a Session (section 3). -/
structure Session where
  appName : String
  userId : String
  sessionId : String
  state : List (String × String)
  transcript : List Turn
deriving Repr, DecidableEq

/-- Modelled from the spec: the in-memory session store (section 6), keyed
by session id. -/
def SessionStore := List (String × Session)

def getSession : SessionStore → String → Option Session
  | [], _ => none
  | (k, s) :: rest, sid => if k = sid then some s else getSession rest sid

def setSession : SessionStore → String → Session → SessionStore
  | [], _, _ => []
  | (k, s) :: rest, sid, s' =>
      if k = sid then (k, s') :: rest else (k, s) :: setSession rest sid s'

/-- One entry of a generation context: a role and a text. -/
structure CtxEntry where
  role : String
  text : String
deriving Repr, DecidableEq

/-- Modelled from the spec: the opaque generation capability (section 6),
`generate(context) -> text`, which may fail with a transport error. -/
def Gen := List CtxEntry → Except Unit String

def Turn.toCtx (t : Turn) : CtxEntry :=
  { role := match t.role with
      | .user => "user"
      | _ => "agent",
    text := String.intercalate "\n" t.parts }

def Message.text (m : Message) : String :=
  String.intercalate "\n" m.parts

/-- Modelled from the spec: the routing context (section 4.2) concatenates
the coordinator instruction, the descriptions of all children, and the
transcript including the new message. -/
def routingContext (coord : Agent) (transcript : List Turn) (m : Message) :
    List CtxEntry :=
  { role := "system", text := coord.instruction }
    :: coord.children.map (fun c => { role := "system", text := c.description })
    ++ transcript.map Turn.toCtx
    ++ [{ role := "user", text := m.text }]

/-- Modelled from the spec: the context for a delegated leaf agent
(section 4.3): its own instruction and the same transcript with the new
message. -/
def leafContext (leaf : Agent) (transcript : List Turn) (m : Message) :
    List CtxEntry :=
  { role := "system", text := leaf.instruction }
    :: transcript.map Turn.toCtx
    ++ [{ role := "user", text := m.text }]

/-- The outcome of interpreting the text returned by the coordinator
capability (section 4.2). -/
inductive Routing where
  | delegate (child : Agent)
  | direct (answer : String)
  | noRoute

/-- Modelled from the spec: interpretation of the routing text
(section 4.2).  If the text names a known child agent it is a delegation —
on ambiguity the first syntactically matching child in registration order
wins; otherwise a non-empty text is a direct answer and an empty text is a
routing failure.  The syntactic name-match predicate is a parameter. -/
def interpretRouting (keyMatch : String → String → Bool) (children : List Agent)
    (text : String) : Routing :=
  match children.find? (fun c => keyMatch text c.name) with
  | some c => .delegate c
  | none => if text = "" then .noRoute else .direct text

/-- Modelled from the spec: the full routing step (section 4.2): invoke the
coordinator capability on the routing context and interpret the returned
text; a capability failure is a transport failure. -/
def routeDecision (gen : Gen) (keyMatch : String → String → Bool)
    (coord : Agent) (transcript : List Turn) (m : Message) :
    Except Unit Routing :=
  match gen (routingContext coord transcript m) with
  | .error e => .error e
  | .ok text => .ok (interpretRouting keyMatch coord.children text)

/-- Modelled from the spec: the error taxonomy surfaced by `run`
(section 7). -/
inductive RunError where
  | sessionNotFound
  | noRoute
  | generation
deriving Repr, DecidableEq

def Message.toTurn (m : Message) : Turn :=
  { author := "user", role := .user, parts := m.parts, target := none }

/-- Modelled from the spec: `Runner.run` (section 4.3), the single-round
executor.  It looks the session up (failing with `SessionNotFoundError` and
touching nothing when the id was never created), appends the user message,
runs the routing step, on delegation invokes the chosen leaf capability, and
appends every produced Turn; on a routing or generation failure after the
lookup the user Turn alone stays committed (sections 4.3, 5 and scenario E:
no agent Turn is committed when generation fails).  It returns the updated
store and either the list of Turns appended during this call, in append
order, or the error. -/
def run (gen : Gen) (keyMatch : String → String → Bool) (coord : Agent)
    (store : SessionStore) (sid : String) (m : Message) :
    SessionStore × Except RunError (List Turn) :=
  match getSession store sid with
  | none => (store, .error .sessionNotFound)
  | some sess =>
    let userTurn := m.toTurn
    let committed := sess.transcript ++ [userTurn]
    let store1 := setSession store sid { sess with transcript := committed }
    match routeDecision gen keyMatch coord sess.transcript m with
    | .error _ => (store1, .error .generation)
    | .ok .noRoute => (store1, .error .noRoute)
    | .ok (.direct answer) =>
      let answerTurn : Turn :=
        { author := coord.name, role := .agent, parts := [answer], target := none }
      (setSession store sid { sess with transcript := committed ++ [answerTurn] },
       .ok [userTurn, answerTurn])
    | .ok (.delegate child) =>
      match gen (leafContext child committed m) with
      | .error _ => (store1, .error .generation)
      | .ok reply =>
        let delegTurn : Turn :=
          { author := coord.name, role := .delegation, parts := [],
            target := some child.name }
        let agentTurn : Turn :=
          { author := child.name, role := .agent, parts := [reply], target := none }
        (setSession store sid
           { sess with transcript := committed ++ [delegTurn, agentTurn] },
         .ok [userTurn, delegTurn, agentTurn])

/-! ## Concrete configuration from `main.py`

The agent objects and session identifiers declared by the script, used as
concrete instances in the theorems below. -/

def billing_agent : Agent :=
  .mk "Billing" "You handle billing and payment-related inquiries."
    "Handles billing inquiries." []

def support_agent : Agent :=
  .mk "Support" "You provide technical support and troubleshooting assistance."
    "Handles technical support requests." []

def coordinator : Agent :=
  .mk "HelpDeskCoordinator"
    "Route user requests: Use Billing agent for payment issues, Support agent for technical problems."
    "Main help desk router." [billing_agent, support_agent]

def user_query : String := "I can't log in gmail, help to give advice."

def user_id : String := "test_user"

def session_id : String := "test_session"

def freshSession : Session :=
  { appName := "test_agent", userId := user_id, sessionId := session_id,
    state := [], transcript := [] }

def demoStore : SessionStore := [(session_id, freshSession)]

def demoMessage : Message := { parts := [user_query] }

/-- A sample event whose last-position content carries one truthy text part
and one `None` part. -/
def evHello : Event :=
  { author := "Support",
    content := some { parts := some [{ text := some "hello" }, { text := none }] } }

/-- A sample event with no content object. -/
def evNoContent : Event :=
  { author := "HelpDeskCoordinator", content := none }

/-- A sample event whose content has a `None` parts list. -/
def evNoParts : Event :=
  { author := "Billing", content := some { parts := none } }

/-- A sample event whose content has an empty parts list. -/
def evEmptyParts : Event :=
  { author := "Billing", content := some { parts := some [] } }

/-! ## Supporting lemmas -/

theorem foldl_const_of_ne_nil {α : Type} (v : String) (xs : List α) :
    ∀ acc : String, xs ≠ [] → xs.foldl (fun _ _ => v) acc = v := by
  induction xs with
  | nil => intro acc h; exact absurd rfl h
  | cons x xs ih =>
    intro acc _
    rw [List.foldl_cons]
    cases xs with
    | nil => rfl
    | cons y ys => exact ih v (by simp)

/-- Closed form of `response` in terms of the last event alone. -/
theorem response_getLast (events : List Event) (e : Event)
    (h : events.getLast? = some e) :
    response events =
      match e.content with
      | none => ""
      | some c =>
        match c.parts with
        | none => ""
        | some ps =>
          if ps = [] then "" else String.intercalate "\n" (ps.filterMap truthyText) := by
  have hne : events ≠ [] := by
    intro he
    subst he
    simp at h
  obtain ⟨author, content⟩ := e
  unfold response
  rw [h]
  cases content with
  | none => rfl
  | some c =>
    obtain ⟨parts⟩ := c
    cases parts with
    | none => rfl
    | some ps =>
      dsimp only
      by_cases hps : ps = []
      · rw [if_pos hps, if_pos hps]
      · rw [if_neg hps, if_neg hps]
        exact foldl_const_of_ne_nil _ events "" hne

/-! ## Claim theorems for the response extraction -/

/-- C1: for a non-empty event list the user-facing reply is obtained from the
last event only: when the last event carries one or more truthy text parts,
the reply is those texts joined with newline separators, and when it carries
no text the reply is the empty string. -/
theorem response_last_event_policy (events : List Event) (e : Event)
    (h : events.getLast? = some e) :
    (eventTexts e ≠ [] → response events = String.intercalate "\n" (eventTexts e)) ∧
    (eventTexts e = [] → response events = "") := by
  rw [response_getLast events e h]
  obtain ⟨author, content⟩ := e
  cases content with
  | none => exact ⟨fun hx => absurd rfl hx, fun _ => rfl⟩
  | some c =>
    obtain ⟨parts⟩ := c
    cases parts with
    | none => exact ⟨fun hx => absurd rfl hx, fun _ => rfl⟩
    | some ps =>
      by_cases hps : ps = []
      · subst hps
        exact ⟨fun hx => absurd rfl hx, fun _ => rfl⟩
      · constructor
        · intro _
          simp [eventTexts, hps]
        · intro hft
          simp only [eventTexts] at hft
          simp [hps, hft]
          rfl

/-- Witness for C1 at a concrete two-event list whose last event has one
truthy text part. -/
theorem response_last_event_policy_witness :
    response [evNoContent, evHello] = String.intercalate "\n" (eventTexts evHello) :=
  (response_last_event_policy [evNoContent, evHello] evHello rfl).1 (by decide)

/-- C9: the response extraction is total over every guarded shape: the empty
event list, a last event without a content object, a last event whose content
has no parts list, and a last event with an empty parts list each yield the
empty string rather than a failure. -/
theorem response_guarded_total :
    response [] = "" ∧
    (∀ events e, events.getLast? = some e → e.content = none →
      response events = "") ∧
    (∀ events e c, events.getLast? = some e → e.content = some c →
      c.parts = none → response events = "") ∧
    (∀ events e c, events.getLast? = some e → e.content = some c →
      c.parts = some [] → response events = "") := by
  refine ⟨rfl, ?_, ?_, ?_⟩
  · intro events e hlast hc
    rw [response_getLast events e hlast, hc]
  · intro events e c hlast hc hp
    rw [response_getLast events e hlast, hc]
    simp [hp]
  · intro events e c hlast hc hp
    rw [response_getLast events e hlast, hc]
    simp [hp]

/-- Witness for C9 at concrete event lists exercising each guarded shape. -/
theorem response_guarded_total_witness :
    response [evNoContent] = "" ∧
    response [evHello, evNoParts] = "" ∧
    response [evEmptyParts] = "" :=
  ⟨response_guarded_total.2.1 [evNoContent] evNoContent rfl rfl,
   response_guarded_total.2.2.1 [evHello, evNoParts] evNoParts ⟨none⟩ rfl rfl rfl,
   response_guarded_total.2.2.2 [evEmptyParts] evEmptyParts ⟨some []⟩ rfl rfl rfl⟩

/-- C10: the extracted reply depends only on the last event: two non-empty
event lists whose last events carry equal content yield equal replies (the
per-event loop always reassigns the same value derived from the last event),
and a part whose text is None or empty is excluded from the newline join. -/
theorem response_depends_only_on_last :
    (∀ es1 es2 e1 e2, es1.getLast? = some e1 → es2.getLast? = some e2 →
       e1.content = e2.content → response es1 = response es2) ∧
    (∀ p : Part, (p.text = none ∨ p.text = some "") ↔ truthyText p = none) := by
  constructor
  · intro es1 es2 e1 e2 h1 h2 hc
    rw [response_getLast es1 e1 h1, response_getLast es2 e2 h2, hc]
  · intro p
    unfold truthyText
    cases p.text with
    | none => simp
    | some t =>
      by_cases h : t = "" <;> simp [h]

/-- Witness for C10: the same last event after different histories yields the
same reply. -/
theorem response_depends_only_on_last_witness :
    response [evNoContent, evHello] = response [evEmptyParts, evNoParts, evHello] :=
  response_depends_only_on_last.1 _ _ evHello evHello rfl rfl rfl

/-! ## Tree lemmas for the agent registry -/

mutual

theorem mem_nodes : ∀ (t a : Agent), a ∈ t.nodes ↔ IsNode t a
  | .mk n i d cs, a => by
    rw [Agent.nodes, List.mem_cons]
    constructor
    · intro h
      cases h with
      | inl h =>
        subst h
        exact IsNode.refl _
      | inr h =>
        obtain ⟨c, hc, hn⟩ := (mem_forestNodes cs a).1 h
        exact IsNode.child hc hn
    · intro h
      cases h with
      | refl => exact Or.inl rfl
      | child hc hn => exact Or.inr ((mem_forestNodes cs a).2 ⟨_, hc, hn⟩)

theorem mem_forestNodes : ∀ (cs : List Agent) (a : Agent),
    a ∈ Agent.forestNodes cs ↔ ∃ c ∈ cs, IsNode c a
  | [], a => by simp [Agent.forestNodes]
  | c :: cs, a => by
    rw [Agent.forestNodes, List.mem_append, mem_nodes c a, mem_forestNodes cs a]
    constructor
    · rintro (h | ⟨d, hd, hn⟩)
      · exact ⟨c, List.mem_cons_self c cs, h⟩
      · exact ⟨d, List.mem_cons_of_mem _ hd, hn⟩
    · rintro ⟨d, hd, hn⟩
      rcases List.mem_cons.1 hd with h | h
      · subst h
        exact Or.inl hn
      · exact Or.inr ⟨d, h, hn⟩

end

/-- `SiblingClash` restated through the declarative node relation. -/
theorem siblingClash_iff (t : Agent) :
    SiblingClash t ↔ ∃ a, IsNode t a ∧ ¬ (a.children.map Agent.name).Nodup := by
  unfold SiblingClash
  constructor
  · rintro ⟨a, ha, hn⟩
    exact ⟨a, (mem_nodes t a).1 ha, hn⟩
  · rintro ⟨a, ha, hn⟩
    exact ⟨a, (mem_nodes t a).2 ha, hn⟩

/-- `CyclicTree` restated through the declarative node and descendant
relations. -/
theorem cyclicTree_iff (t : Agent) :
    CyclicTree t ↔
      ∃ a b, IsNode t a ∧ ProperDescendant a b ∧ b.name = a.name := by
  unfold CyclicTree Agent.descendantNames ProperDescendant
  constructor
  · rintro ⟨a, ha, hm⟩
    rw [List.mem_map] at hm
    obtain ⟨b, hb, hname⟩ := hm
    obtain ⟨c, hc, hn⟩ := (mem_forestNodes a.children b).1 hb
    exact ⟨a, b, (mem_nodes t a).1 ha, ⟨c, hc, hn⟩, hname⟩
  · rintro ⟨a, b, ha, ⟨c, hc, hn⟩, hname⟩
    refine ⟨a, (mem_nodes t a).2 ha, ?_⟩
    rw [List.mem_map]
    exact ⟨b, (mem_forestNodes a.children b).2 ⟨c, hc, hn⟩, hname⟩

/-! ## Claim theorem for the agent registry -/

/-- C6: `register(coordinator, children)` fails with a `ConfigurationError`
exactly when two sibling agents of the built tree share a name or some agent
appears as its own descendant; every successfully registered tree has names
unique among siblings (the registered tree is an immutable value, so it is
read-only afterwards by construction). -/
theorem register_configuration (coordinator : Agent) (children : List Agent) :
    ((∃ e, register coordinator children = Except.error e) ↔
      ((∃ a, IsNode (regTree coordinator children) a ∧
          ¬ (a.children.map Agent.name).Nodup) ∨
       (∃ a b, IsNode (regTree coordinator children) a ∧
          ProperDescendant a b ∧ b.name = a.name))) ∧
    (∀ t, register coordinator children = Except.ok t →
      ∀ a, IsNode t a → (a.children.map Agent.name).Nodup) := by
  constructor
  · rw [← siblingClash_iff, ← cyclicTree_iff]
    unfold register
    by_cases h1 : SiblingClash (regTree coordinator children)
    · simp [h1]
    · by_cases h2 : CyclicTree (regTree coordinator children)
      · simp [h1, h2]
      · simp [h1, h2]
  · intro t ht a ha
    unfold register at ht
    by_cases h1 : SiblingClash (regTree coordinator children)
    · simp [h1] at ht
    · by_cases h2 : CyclicTree (regTree coordinator children)
      · simp [h1, h2] at ht
      · simp [h1, h2] at ht
        subst ht
        by_contra hnd
        exact h1 ((siblingClash_iff _).2 ⟨a, ha, hnd⟩)

/-- Witness for C6: registering the script's coordinator with its two
children succeeds and the sibling names are unique. -/
theorem register_configuration_witness :
    (coordinator.children.map Agent.name).Nodup :=
  (register_configuration coordinator [billing_agent, support_agent]).2
    coordinator rfl coordinator (IsNode.refl coordinator)

/-! ## Session store lemma -/

theorem getSession_setSession (store : SessionStore) (sid : String)
    (s s' : Session) (h : getSession store sid = some s) :
    getSession (setSession store sid s') sid = some s' := by
  induction store with
  | nil => simp [getSession] at h
  | cons kv rest ih =>
    obtain ⟨k, v⟩ := kv
    by_cases hk : k = sid
    · subst hk
      simp [getSession, setSession]
    · simp only [getSession, setSession, if_neg hk] at h ⊢
      exact ih h

/-! ## Claim theorems for the runner -/

/-- C2: a successful `run` call returns exactly the Turns appended to the
session during that call, in append order, with the user message first and
only delegation or agent turns after it; the prior transcript is untouched
and not returned. -/
theorem run_returns_appended (gen : Gen) (keyMatch : String → String → Bool)
    (coord : Agent) (store : SessionStore) (sid : String) (m : Message)
    (sess : Session) (store' : SessionStore) (turns : List Turn)
    (hs : getSession store sid = some sess)
    (h : run gen keyMatch coord store sid m = (store', Except.ok turns)) :
    getSession store' sid =
      some { sess with transcript := sess.transcript ++ turns } ∧
    turns.head? = some m.toTurn ∧
    (∀ t ∈ turns.tail, t.role = TurnRole.delegation ∨ t.role = TurnRole.agent) := by
  unfold run at h
  rw [hs] at h
  dsimp only at h
  cases hr : routeDecision gen keyMatch coord sess.transcript m with
  | error e =>
    rw [hr] at h
    simp at h
  | ok rt =>
    rw [hr] at h
    cases rt with
    | noRoute => simp at h
    | direct answer =>
      dsimp only at h
      simp only [Prod.mk.injEq, Except.ok.injEq] at h
      obtain ⟨h1, h2⟩ := h
      subst h1
      subst h2
      refine ⟨?_, rfl, ?_⟩
      · rw [getSession_setSession store sid sess _ hs]
        simp
      · intro t ht
        simp at ht
        subst ht
        exact Or.inr rfl
    | delegate child =>
      dsimp only at h
      cases hl : gen (leafContext child (sess.transcript ++ [m.toTurn]) m) with
      | error e =>
        rw [hl] at h
        simp at h
      | ok reply =>
        rw [hl] at h
        dsimp only at h
        simp only [Prod.mk.injEq, Except.ok.injEq] at h
        obtain ⟨h1, h2⟩ := h
        subst h1
        subst h2
        refine ⟨?_, rfl, ?_⟩
        · rw [getSession_setSession store sid sess _ hs]
          simp
        · intro t ht
          simp at ht
          rcases ht with ht | ht <;> subst ht
          · exact Or.inl rfl
          · exact Or.inr rfl

/-- C3: when the generation capability fails during the delegated agent's
call, `run` raises the generation error and the user Turn is the only Turn
committed by that call. -/
theorem run_delegate_generation_failure (gen : Gen)
    (keyMatch : String → String → Bool) (coord : Agent) (store : SessionStore)
    (sid : String) (m : Message) (sess : Session) (text : String) (child : Agent)
    (hs : getSession store sid = some sess)
    (hroute : gen (routingContext coord sess.transcript m) = Except.ok text)
    (hsel : coord.children.find? (fun a => keyMatch text a.name) = some child)
    (hleaf : gen (leafContext child (sess.transcript ++ [m.toTurn]) m) =
      Except.error ()) :
    run gen keyMatch coord store sid m =
      (setSession store sid
        { sess with transcript := sess.transcript ++ [m.toTurn] },
       Except.error RunError.generation) := by
  unfold run
  rw [hs]
  dsimp only
  have hr : routeDecision gen keyMatch coord sess.transcript m =
      Except.ok (Routing.delegate child) := by
    unfold routeDecision interpretRouting
    rw [hroute]
    dsimp only
    rw [hsel]
  rw [hr]
  dsimp only
  rw [hleaf]

/-- C4: `run` commits the user Turn before any error other than the missing
session: an unknown session id yields the session-not-found error with every
transcript unchanged, and any other error leaves exactly the prior
transcript plus the user Turn. -/
theorem run_user_turn_durable (gen : Gen) (keyMatch : String → String → Bool)
    (coord : Agent) (store : SessionStore) (sid : String) (m : Message) :
    (getSession store sid = none →
      run gen keyMatch coord store sid m =
        (store, Except.error RunError.sessionNotFound)) ∧
    (∀ sess, getSession store sid = some sess →
      ∀ e, (run gen keyMatch coord store sid m).2 = Except.error e →
        e ≠ RunError.sessionNotFound ∧
        (run gen keyMatch coord store sid m).1 =
          setSession store sid
            { sess with transcript := sess.transcript ++ [m.toTurn] }) := by
  constructor
  · intro hnone
    unfold run
    rw [hnone]
  · intro sess hs e he
    unfold run at he ⊢
    rw [hs] at he ⊢
    dsimp only at he ⊢
    cases hr : routeDecision gen keyMatch coord sess.transcript m with
    | error err =>
      rw [hr] at he
      simp at he
      subst he
      exact ⟨by simp, rfl⟩
    | ok rt =>
      rw [hr] at he
      cases rt with
      | noRoute =>
        simp at he
        subst he
        exact ⟨by simp, rfl⟩
      | direct answer => simp at he
      | delegate child =>
        dsimp only at he ⊢
        cases hl : gen (leafContext child (sess.transcript ++ [m.toTurn]) m) with
        | error err =>
          rw [hl] at he
          simp at he
          subst he
          exact ⟨by simp, rfl⟩
        | ok reply =>
          rw [hl] at he
          simp at he

/-- C5: when the coordinator capability produces the empty text and no child
agent matches it, `run` surfaces the no-route failure to the caller instead
of producing a default reply; only the user Turn is committed. -/
theorem run_no_route_surfaced (gen : Gen) (keyMatch : String → String → Bool)
    (coord : Agent) (store : SessionStore) (sid : String) (m : Message)
    (sess : Session)
    (hs : getSession store sid = some sess)
    (hgen : gen (routingContext coord sess.transcript m) = Except.ok "")
    (hnone : ∀ c ∈ coord.children, keyMatch "" c.name = false) :
    run gen keyMatch coord store sid m =
      (setSession store sid
        { sess with transcript := sess.transcript ++ [m.toTurn] },
       Except.error RunError.noRoute) := by
  have hfind : coord.children.find? (fun a => keyMatch "" a.name) = none := by
    rw [List.find?_eq_none]
    intro c hc
    simp [hnone c hc]
  have hr : routeDecision gen keyMatch coord sess.transcript m =
      Except.ok Routing.noRoute := by
    unfold routeDecision interpretRouting
    rw [hgen]
    dsimp only
    rw [hfind]
    simp
  unfold run
  rw [hs]
  dsimp only
  rw [hr]

/-- C7: routing is deterministic and independent of transcript history: when
the capability answers the same text for the message over any transcript and
that text selects child `c`, the routing step of two runs over arbitrary
different transcripts delegates to `c` in both. -/
theorem routing_deterministic (gen : Gen) (keyMatch : String → String → Bool)
    (coord : Agent) (m : Message) (c : Agent) (r : String)
    (hgen : ∀ transcript, gen (routingContext coord transcript m) = Except.ok r)
    (hsel : coord.children.find? (fun a => keyMatch r a.name) = some c)
    (t1 t2 : List Turn) :
    routeDecision gen keyMatch coord t1 m = Except.ok (Routing.delegate c) ∧
    routeDecision gen keyMatch coord t2 m = Except.ok (Routing.delegate c) := by
  constructor <;>
    · unfold routeDecision interpretRouting
      rw [hgen]
      dsimp only
      rw [hsel]

/-- C8: when the routing text syntactically matches the names of more than
one child agent, the first matching child in registration order is the
delegation target. -/
theorem routing_tie_break (keyMatch : String → String → Bool)
    (children : List Agent) (text : String) (c : Agent)
    (_hamb : 1 < (children.filter (fun a => keyMatch text a.name)).length)
    (hfirst : (children.filter (fun a => keyMatch text a.name)).head? = some c) :
    interpretRouting keyMatch children text = Routing.delegate c := by
  rw [List.filter_head?] at hfirst
  unfold interpretRouting
  rw [hfirst]

/-! ## Concrete capabilities and witnesses for the runner claims -/

/-- A name-match predicate used in witnesses: the routing text is exactly the
child name. -/
def exactMatch : String → String → Bool := fun text name => text == name

/-- A capability that always answers the text `Support`. -/
def supportGen : Gen := fun _ => Except.ok "Support"

/-- A capability that always answers the empty text. -/
def emptyGen : Gen := fun _ => Except.ok ""

/-- A capability that answers `Billing` on the coordinator routing context
and fails with a transport error on every other context. -/
def failingLeafGen : Gen := fun ctx =>
  match ctx with
  | [] => Except.error ()
  | e :: _ =>
    if e.text == coordinator.instruction then Except.ok "Billing"
    else Except.error ()

def demoUserTurn : Turn := demoMessage.toTurn

def demoDelegTurn : Turn :=
  { author := "HelpDeskCoordinator", role := .delegation, parts := [],
    target := some "Support" }

def demoAgentTurn : Turn :=
  { author := "Support", role := .agent, parts := ["Support"], target := none }

def demoStoreAfter : SessionStore :=
  [(session_id,
    { freshSession with
        transcript := [demoUserTurn, demoDelegTurn, demoAgentTurn] })]

/-- Witness for C2 at the script's configuration: the returned turns start
with the user message and land at the end of the transcript. -/
theorem run_returns_appended_witness :
    getSession demoStoreAfter session_id =
      some { freshSession with
               transcript := freshSession.transcript ++
                 [demoUserTurn, demoDelegTurn, demoAgentTurn] } ∧
    ([demoUserTurn, demoDelegTurn, demoAgentTurn] : List Turn).head? =
      some demoMessage.toTurn :=
  ⟨(run_returns_appended supportGen exactMatch coordinator demoStore session_id
      demoMessage freshSession demoStoreAfter
      [demoUserTurn, demoDelegTurn, demoAgentTurn] rfl rfl).1,
   (run_returns_appended supportGen exactMatch coordinator demoStore session_id
      demoMessage freshSession demoStoreAfter
      [demoUserTurn, demoDelegTurn, demoAgentTurn] rfl rfl).2.1⟩

/-- Witness for C3: a transport failure during the Billing call leaves the
user Turn as the only committed Turn and raises the generation error. -/
theorem run_delegate_generation_failure_witness :
    run failingLeafGen exactMatch coordinator demoStore session_id demoMessage =
      (setSession demoStore session_id
        { freshSession with
            transcript := freshSession.transcript ++ [demoMessage.toTurn] },
       Except.error RunError.generation) :=
  run_delegate_generation_failure failingLeafGen exactMatch coordinator
    demoStore session_id demoMessage freshSession "Billing" billing_agent
    rfl rfl rfl rfl

/-- Witness for C4: an unknown session id yields the session-not-found error
and leaves the empty store untouched. -/
theorem run_user_turn_durable_witness :
    run supportGen exactMatch coordinator [] session_id demoMessage =
      ([], Except.error RunError.sessionNotFound) :=
  (run_user_turn_durable supportGen exactMatch coordinator [] session_id
    demoMessage).1 rfl

/-- Witness for C5: an empty capability answer with no matching child
surfaces the no-route error with only the user Turn committed. -/
theorem run_no_route_surfaced_witness :
    run emptyGen exactMatch coordinator demoStore session_id demoMessage =
      (setSession demoStore session_id
        { freshSession with
            transcript := freshSession.transcript ++ [demoMessage.toTurn] },
       Except.error RunError.noRoute) :=
  run_no_route_surfaced emptyGen exactMatch coordinator demoStore session_id
    demoMessage freshSession rfl rfl (by decide)

/-- Witness for C7: a capability that always answers `Billing` delegates to
the Billing agent over the empty transcript and over a non-trivial one. -/
theorem routing_deterministic_witness :
    routeDecision (fun _ => Except.ok "Billing") exactMatch coordinator []
      demoMessage = Except.ok (Routing.delegate billing_agent) ∧
    routeDecision (fun _ => Except.ok "Billing") exactMatch coordinator
      [demoUserTurn, demoAgentTurn] demoMessage =
      Except.ok (Routing.delegate billing_agent) :=
  routing_deterministic (fun _ => Except.ok "Billing") exactMatch coordinator
    demoMessage billing_agent "Billing" (fun _ => rfl) rfl []
    [demoUserTurn, demoAgentTurn]

/-- Witness for C8: a predicate matching both children picks the first one in
registration order. -/
theorem routing_tie_break_witness :
    interpretRouting (fun _ _ => true) [billing_agent, support_agent] "pay" =
      Routing.delegate billing_agent :=
  routing_tie_break (fun _ _ => true) [billing_agent, support_agent] "pay"
    billing_agent (by decide) rfl

end AdkDemo
